import Mathlib

/-!
# Verification of the data-agency sandbox execution engine

Shallow embedding of the code-execution sandbox of the `data-agency`
repository, covering:

* `_cleanup_old_runs` (run-directory retention) and the `strptime`-based
  run-name recognition, from `commands/analyze/sandbox/runner.py`;
* `_save_var` / the bootstrap's `_load_var` (variable marshaling), from
  `runner.py` and `commands/analyze/sandbox/prelude.py`;
* `_find_used_variables` (identifier-token scan), from `runner.py`;
* `execute` (run-session lifecycle with its `try/finally` cleanup), from
  `runner.py`;
* `DockerRuntime.ensure_docker`, `ensure_image` and `run`, from
  `analysis/sandbox/docker_runtime.py`;
* the in-sandbox bootstrap `run`, from `prelude.py`.

Machine values are modelled with `Nat`/`Int`; filesystem state is modelled
as explicit lists of directory entries; fallible operations return
`Except`/`Option`.
-/

namespace DataAgency

/-! ## Timestamp parsing: `datetime.strptime(s, "%Y%m%d_%H%M%S_%f")`

`_cleanup_old_runs` recognises run directories by attempting
`datetime.strptime(item.name[4:], "%Y%m%d_%H%M%S_%f")` and catching
`ValueError`.  CPython's `_strptime` compiles this format to the regex
`(\d\d\d\d)(1[0-2]|0[1-9]|[1-9])(3[01]|[12]\d|0[1-9]|[1-9])_`
`(2[0-3]|[0-1]\d|\d)([0-5]\d|\d)(6[01]|[0-5]\d|\d)_([0-9]{1,6})`,
requires the match to span the whole string, and then feeds the captured
fields to the `datetime` constructor, which range-checks them.  The
functions below reproduce that: each field is a preference-ordered list of
alternatives tried with backtracking, exactly as `re` resolves the
alternations. -/

/-- ASCII digit test (the `\d` class of the compiled strptime pattern). -/
def isAsciiDigit (c : Char) : Bool := '0' ≤ c && c ≤ '9'

/-- Numeric value of an ASCII digit character. -/
def digitVal (c : Char) : Nat := c.toNat - '0'.toNat

/-- Try the alternatives of one regex field in preference order; on a
successful alternative run the continuation, and backtrack to the next
alternative when the continuation fails (mirrors `re` backtracking). -/
def tryAlts {α : Type} (alts : List (List Char → Option (Nat × List Char)))
    (k : Nat → List Char → Option α) (s : List Char) : Option α :=
  match alts with
  | [] => none
  | a :: rest =>
    match a s with
    | some (v, s') =>
      match k v s' with
      | some r => some r
      | none => tryAlts rest k s
    | none => tryAlts rest k s

/-- Regex alternative `1[0-2]` (months 10, 11, 12). -/
def altTenToTwelve : List Char → Option (Nat × List Char)
  | c0 :: c1 :: s =>
    if c0 = '1' && '0' ≤ c1 && c1 ≤ '2' then some (10 + digitVal c1, s) else none
  | _ => none

/-- Regex alternative `0[1-9]`. -/
def altZeroThenOneToNine : List Char → Option (Nat × List Char)
  | c0 :: c1 :: s =>
    if c0 = '0' && '1' ≤ c1 && c1 ≤ '9' then some (digitVal c1, s) else none
  | _ => none

/-- Regex alternative `[1-9]`. -/
def altOneToNine : List Char → Option (Nat × List Char)
  | c :: s => if '1' ≤ c && c ≤ '9' then some (digitVal c, s) else none
  | _ => none

/-- Regex alternative `3[01]` (days 30, 31). -/
def altThirtyThirtyOne : List Char → Option (Nat × List Char)
  | c0 :: c1 :: s =>
    if c0 = '3' && (c1 = '0' || c1 = '1') then some (30 + digitVal c1, s) else none
  | _ => none

/-- Regex alternative `[12]\d` (days 10-29). -/
def altTeensTwenties : List Char → Option (Nat × List Char)
  | c0 :: c1 :: s =>
    if (c0 = '1' || c0 = '2') && isAsciiDigit c1 then
      some (10 * digitVal c0 + digitVal c1, s)
    else none
  | _ => none

/-- Regex alternative `[0-h]\d` for a digit upper bound `h` (covers the
`[0-1]\d` of `%H` and the `[0-5]\d` of `%M`/`%S`). -/
def altTensUpTo (hi : Char) : List Char → Option (Nat × List Char)
  | c0 :: c1 :: s =>
    if '0' ≤ c0 && c0 ≤ hi && isAsciiDigit c1 then
      some (10 * digitVal c0 + digitVal c1, s)
    else none
  | _ => none

/-- Regex alternative `2[0-3]` (hours 20-23). -/
def altTwentyToTwentyThree : List Char → Option (Nat × List Char)
  | c0 :: c1 :: s =>
    if c0 = '2' && '0' ≤ c1 && c1 ≤ '3' then some (20 + digitVal c1, s) else none
  | _ => none

/-- Regex alternative `\d` (any single digit). -/
def altAnyDigit : List Char → Option (Nat × List Char)
  | c :: s => if isAsciiDigit c then some (digitVal c, s) else none
  | _ => none

/-- Regex alternative `6[01]` (leap seconds 60, 61, accepted by `%S` but
later rejected by the `datetime` constructor). -/
def altSixtySixtyOne : List Char → Option (Nat × List Char)
  | c0 :: c1 :: s =>
    if c0 = '6' && (c1 = '0' || c1 = '1') then some (60 + digitVal c1, s) else none
  | _ => none

/-- The `%f` field: `[0-9]{1,6}`, which must consume the remainder of the
string (strptime rejects trailing characters), right-padded with zeros to a
microsecond count. -/
def parseMicro (s : List Char) : Option Nat :=
  if s.length = 0 || 6 < s.length || !(s.all isAsciiDigit) then none
  else some ((s.foldl (fun a c => a * 10 + digitVal c) 0) * 10 ^ (6 - s.length))

/-- Parsed timestamp fields. -/
structure Timestamp where
  year : Nat
  month : Nat
  day : Nat
  hour : Nat
  minute : Nat
  second : Nat
  microsecond : Nat
deriving DecidableEq, Repr

/-- The regex phase of `strptime(s, "%Y%m%d_%H%M%S_%f")`: four year digits,
then the month/day/hour/minute/second alternations resolved with
backtracking, with the two literal underscores and full consumption of the
input. -/
def strptimeMatch (s : List Char) : Option Timestamp :=
  match s with
  | y1 :: y2 :: y3 :: y4 :: rest =>
    if isAsciiDigit y1 && isAsciiDigit y2 && isAsciiDigit y3 && isAsciiDigit y4 then
      let y := ((digitVal y1 * 10 + digitVal y2) * 10 + digitVal y3) * 10 + digitVal y4
      tryAlts [altTenToTwelve, altZeroThenOneToNine, altOneToNine] (fun mo s1 =>
        tryAlts [altThirtyThirtyOne, altTeensTwenties, altZeroThenOneToNine, altOneToNine]
          (fun d s2 =>
            match s2 with
            | '_' :: s3 =>
              tryAlts [altTwentyToTwentyThree, altTensUpTo '1', altAnyDigit] (fun h s4 =>
                tryAlts [altTensUpTo '5', altAnyDigit] (fun mi s5 =>
                  tryAlts [altSixtySixtyOne, altTensUpTo '5', altAnyDigit] (fun se s6 =>
                    match s6 with
                    | '_' :: s7 =>
                      (parseMicro s7).map fun f =>
                        ⟨y, mo, d, h, mi, se, f⟩
                    | _ => none) s5) s4) s3
            | _ => none) s1) rest
    else none
  | _ => none

/-- Gregorian leap-year rule, as used by `datetime`. -/
def isLeapYear (y : Nat) : Bool := y % 4 = 0 && (y % 100 != 0 || y % 400 = 0)

/-- Days in a month, as used by the `datetime` constructor's validation. -/
def daysInMonth (y m : Nat) : Nat :=
  if m = 2 then (if isLeapYear y then 29 else 28)
  else if m = 4 || m = 6 || m = 9 || m = 11 then 30
  else 31

/-- The `datetime(...)` constructor's range validation (`MINYEAR = 1`,
`MAXYEAR = 9999`; a second of 60/61 passed by `%S` is rejected here). -/
def validFields (t : Timestamp) : Bool :=
  1 ≤ t.year && t.year ≤ 9999 &&
  1 ≤ t.month && t.month ≤ 12 &&
  1 ≤ t.day && t.day ≤ daysInMonth t.year t.month &&
  t.hour ≤ 23 && t.minute ≤ 59 && t.second ≤ 59 && t.microsecond ≤ 999999

/-- `datetime.strptime(s, "%Y%m%d_%H%M%S_%f")`: `none` corresponds to the
`ValueError` that `_cleanup_old_runs` catches. -/
def parseRunTimestamp (s : String) : Option Timestamp :=
  match strptimeMatch s.data with
  | some t => if validFields t then some t else none
  | none => none

/-! ## `_cleanup_old_runs` (RetentionManager.prune)

The root directory state is modelled as the list of immediate children of
`CONTAINER_IO_PATH`, each a name together with an `is_dir` flag.
`shutil.rmtree(oldest, ignore_errors=True)` is modelled as a removal that
succeeds (the best-effort error swallowing has no failing counterpart in
the model). -/

/-- An immediate child of the run root, as seen by `Path.iterdir()`. -/
structure DirEntry where
  name : String
  isDir : Bool
deriving DecidableEq, Repr

/-- The filter applied by `_cleanup_old_runs` to each child:
`item.is_dir() and item.name.startswith("run_")` and
`datetime.strptime(item.name[4:], "%Y%m%d_%H%M%S_%f")` not raising. -/
def entryMatches (e : DirEntry) : Bool :=
  e.isDir && e.name.startsWith "run_" && (parseRunTimestamp (e.name.drop 4)).isSome

/-- The matching run-directory names sorted by name
(`run_dirs.sort(key=lambda x: x.name)`; Python string comparison is
lexicographic on code points, as is the `String` order here). -/
def sortedRunNames (entries : List DirEntry) : List String :=
  ((entries.filter entryMatches).map DirEntry.name).mergeSort

/-- `_cleanup_old_runs(max_runs)`: collect the matching children, sort them
by name, and while more than `max_runs` remain pop the first (oldest) and
remove it from disk (`shutil.rmtree(oldest, ignore_errors=True)`). -/
def cleanupOldRuns (maxRuns : Nat) (entries : List DirEntry) : List DirEntry :=
  let runDirs := sortedRunNames entries
  let removed := runDirs.take (runDirs.length - maxRuns)
  entries.filter (fun e => !(removed.contains e.name))

/-! ## `DockerRuntime.run`: the stderr fallback

`subprocess.CompletedProcess` is modelled by its three captured fields. -/

/-- Captured outcome of one external process invocation. -/
structure Proc where
  stdout : String
  stderr : String
  returncode : Int
deriving DecidableEq, Repr

/-- The post-processing at the end of `DockerRuntime.run`:
`if proc.returncode != 0 and not proc.stderr: proc.stderr = proc.stdout`
(an empty string is the only falsy `str`). -/
def dockerRunResult (proc : Proc) : Proc :=
  if proc.returncode ≠ 0 ∧ proc.stderr = "" then { proc with stderr := proc.stdout }
  else proc

/-! ## Variable marshaling: `_save_var` and the bootstrap's `_load_var`

The marshalable kinds (scalars, strings, sequences, mappings, tabular
payloads) are the `Value` type; floating-point scalars are outside the
embedding.  `pickle` is modelled as an injective token-stream encoding
with an explicit decoder; `DataFrame.to_pickle` and `pd.read_pickle` are
pickle-based (`read_pickle` unpickles any valid pickle, DataFrame or
not), so both serialization branches produce streams the decoder
accepts. -/

/-- A marshalable host value. -/
inductive Value : Type where
  | intV (n : Int) : Value
  | strV (s : String) : Value
  | listV (xs : List Value) : Value
  | dictV (kvs : List (String × Value)) : Value
  | frameV (cols : List (String × List Int)) : Value

/-- Encoding of an integer: sign token then magnitude token. -/
def encInt : Int → List Nat
  | .ofNat n => [0, n]
  | .negSucc n => [1, n]

/-- Encoding of a string: length token then one token per character. -/
def encStrPayload (s : String) : List Nat :=
  s.data.length :: s.data.map Char.toNat

/-- Encoding of one integer column of a tabular payload. -/
def encodeIntCol : List Int → List Nat
  | [] => []
  | i :: is => encInt i ++ encodeIntCol is

/-- Encoding of the named columns of a tabular payload. -/
def encodeFrameCols : List (String × List Int) → List Nat
  | [] => []
  | (n, c) :: cs => encStrPayload n ++ c.length :: (encodeIntCol c ++ encodeFrameCols cs)

mutual

/-- The pickle byte stream of a value: a kind tag followed by the payload. -/
def encodeValue : Value → List Nat
  | .intV i => 0 :: encInt i
  | .strV s => 1 :: encStrPayload s
  | .listV xs => 2 :: xs.length :: encodeListVals xs
  | .dictV kvs => 3 :: kvs.length :: encodeDictEntries kvs
  | .frameV cols => 4 :: cols.length :: encodeFrameCols cols

/-- Encoding of the elements of a sequence, in order. -/
def encodeListVals : List Value → List Nat
  | [] => []
  | v :: vs => encodeValue v ++ encodeListVals vs

/-- Encoding of the key-value entries of a mapping, in order. -/
def encodeDictEntries : List (String × Value) → List Nat
  | [] => []
  | (k, v) :: kvs => encStrPayload k ++ (encodeValue v ++ encodeDictEntries kvs)

end

/-- Decoder for `encInt`. -/
def decInt : List Nat → Option (Int × List Nat)
  | 0 :: n :: s => some (Int.ofNat n, s)
  | 1 :: n :: s => some (Int.negSucc n, s)
  | _ => none

/-- Decoder for `encStrPayload`. -/
def decStrPayload : List Nat → Option (String × List Nat)
  | n :: s =>
    if n ≤ s.length then some (⟨(s.take n).map Char.ofNat⟩, s.drop n) else none
  | [] => none

/-- Decoder for `encodeIntCol` (element count known from the header). -/
def decIntCol : Nat → List Nat → Option (List Int × List Nat)
  | 0, s => some ([], s)
  | n+1, s =>
    match decInt s with
    | some (i, s') =>
      match decIntCol n s' with
      | some (is, s'') => some (i :: is, s'')
      | none => none
    | none => none

/-- Decoder for `encodeFrameCols` (column count known from the header). -/
def decFrameCols : Nat → List Nat → Option (List (String × List Int) × List Nat)
  | 0, s => some ([], s)
  | n+1, s =>
    match decStrPayload s with
    | some (k, s') =>
      match s' with
      | m :: s'' =>
        match decIntCol m s'' with
        | some (c, s3) =>
          match decFrameCols n s3 with
          | some (cs, s4) => some ((k, c) :: cs, s4)
          | none => none
        | none => none
      | [] => none
    | none => none

mutual

/-- Fueled decoder for `encodeValue` (the fuel bounds the nesting depth). -/
def decodeValue : Nat → List Nat → Option (Value × List Nat)
  | 0, _ => none
  | _+1, 0 :: rest => (decInt rest).map fun p => (Value.intV p.1, p.2)
  | _+1, 1 :: rest => (decStrPayload rest).map fun p => (Value.strV p.1, p.2)
  | fuel+1, 2 :: n :: rest => (decodeListVals fuel n rest).map fun p => (Value.listV p.1, p.2)
  | fuel+1, 3 :: n :: rest => (decodeDictEntries fuel n rest).map fun p => (Value.dictV p.1, p.2)
  | _+1, 4 :: n :: rest => (decFrameCols n rest).map fun p => (Value.frameV p.1, p.2)
  | _+1, _ => none
termination_by fuel s => (fuel, 0)

/-- Fueled decoder for `encodeListVals`. -/
def decodeListVals : Nat → Nat → List Nat → Option (List Value × List Nat)
  | _, 0, s => some ([], s)
  | fuel, n+1, s =>
    match decodeValue fuel s with
    | some (v, s') =>
      match decodeListVals fuel n s' with
      | some (vs, s'') => some (v :: vs, s'')
      | none => none
    | none => none
termination_by fuel n s => (fuel, n + 1)

/-- Fueled decoder for `encodeDictEntries`. -/
def decodeDictEntries : Nat → Nat → List Nat → Option (List (String × Value) × List Nat)
  | _, 0, s => some ([], s)
  | fuel, n+1, s =>
    match decStrPayload s with
    | some (k, s') =>
      match decodeValue fuel s' with
      | some (v, s'') =>
        match decodeDictEntries fuel n s'' with
        | some (kvs, s3) => some ((k, v) :: kvs, s3)
        | none => none
      | none => none
    | none => none
termination_by fuel n s => (fuel, n + 1)

end

mutual

/-- Nesting depth of a value: the decoder fuel it needs. -/
def vdepth : Value → Nat
  | .intV _ => 1
  | .strV _ => 1
  | .frameV _ => 1
  | .listV xs => vdepthList xs + 1
  | .dictV kvs => vdepthDict kvs + 1

/-- Greatest nesting depth among sequence elements. -/
def vdepthList : List Value → Nat
  | [] => 0
  | v :: vs => max (vdepth v) (vdepthList vs)

/-- Greatest nesting depth among mapping values. -/
def vdepthDict : List (String × Value) → Nat
  | [] => 0
  | kv :: kvs => max (vdepth kv.2) (vdepthDict kvs)

end

/-- `pickle.load` / `pickle.loads` on a whole file: decode one value and
require the stream to be exhausted. -/
def pickleLoads (bs : List Nat) : Option Value :=
  match decodeValue (bs.length + 1) bs with
  | some (v, []) => some v
  | _ => none

/-- `isinstance(value, pd.DataFrame)`. -/
def isDataFrame : Value → Bool
  | .frameV _ => true
  | _ => false

/-- `_save_var(path, value)`: a DataFrame is written with
`value.to_pickle(path)`, any other value with `pickle.dump(value, f,
protocol=pickle.HIGHEST_PROTOCOL)`; both branches produce a pickle stream
of the value. -/
def saveVar (v : Value) : List Nat :=
  if isDataFrame v then encodeValue v else encodeValue v

/-- `pd.read_pickle(path)`: unpickles the file (succeeding on any valid
pickle stream, tabular or not). -/
def readPickle (bs : List Nat) : Option Value := pickleLoads bs

/-- The bootstrap's `_load_var(path)`: first `try: return
pd.read_pickle(path) except Exception: pass`, then fall back to
`pickle.load(f)`. -/
def loadVar (bs : List Nat) : Option Value :=
  match readPickle bs with
  | some v => some v
  | none => pickleLoads bs

/-! ## `_find_used_variables`: the identifier-token scan -/

/-- A word character of the scan regex (`[a-zA-Z0-9_]`; the model restricts
`\b`/`\w` to their ASCII range). -/
def isWordChar (c : Char) : Bool := c.isAlpha || c.isDigit || c = '_'

/-- Splits a character list into its maximal runs of word characters
(the current run is accumulated in reverse). -/
def wordRunsGo : List Char → List Char → List (List Char)
  | cur, [] => if cur.isEmpty then [] else [cur.reverse]
  | cur, c :: cs =>
    if isWordChar c then wordRunsGo (c :: cur) cs
    else if cur.isEmpty then wordRunsGo [] cs
    else cur.reverse :: wordRunsGo [] cs

/-- The maximal word-character runs of the code text; the `\b` boundaries
of `re.findall(r"\b([a-zA-Z_][a-zA-Z0-9_]*)\b", code)` fall exactly at the
edges of these runs. -/
def wordRuns (s : List Char) : List (List Char) := wordRunsGo [] s

/-- The tokens found by the scan: the maximal word runs that begin with a
letter or underscore (a run beginning with a digit contains no interior
word boundary, so no match can start inside it). -/
def identTokens (code : String) : List String :=
  ((wordRuns code.data).filter fun r =>
    match r with
    | c :: _ => c.isAlpha || c = '_'
    | [] => false).map fun r => ⟨r⟩

/-- `_find_used_variables(code, namespace)`:
`{k: v for k, v in namespace.items() if k in used}` where `used` is the
set of found tokens. -/
def findUsedVariables (code : String) (ns : List (String × Value)) :
    List (String × Value) :=
  ns.filter fun kv => (identTokens code).contains kv.1

/-! ## Run names: `datetime.now().strftime("%Y%m%d_%H%M%S_%f")` -/

/-- A decimal digit character. -/
def digitChar : Nat → Char
  | 0 => '0' | 1 => '1' | 2 => '2' | 3 => '3' | 4 => '4'
  | 5 => '5' | 6 => '6' | 7 => '7' | 8 => '8' | _ => '9'

/-- Fixed-width zero-padded decimal rendering (strftime zero padding): the
low `w` digits of `n`, most significant first. -/
def fixedDigits : Nat → Nat → List Char
  | 0, _ => []
  | w+1, n => fixedDigits w (n / 10) ++ [digitChar (n % 10)]

/-- `t.strftime("%Y%m%d_%H%M%S_%f")` for an in-range timestamp. -/
def formatTimestamp (t : Timestamp) : List Char :=
  fixedDigits 4 t.year ++ fixedDigits 2 t.month ++ fixedDigits 2 t.day ++ ['_'] ++
  fixedDigits 2 t.hour ++ fixedDigits 2 t.minute ++ fixedDigits 2 t.second ++ ['_'] ++
  fixedDigits 6 t.microsecond

/-- The run-directory name `f"run_{timestamp}"`. -/
def runDirName (t : Timestamp) : String :=
  "run_" ++ String.mk (formatTimestamp t)

/-! ## `execute`: session lifecycle with scoped cleanup -/

/-- Observable events during `execute`. -/
inductive Event where
  | prune (maxRuns : Nat)
deriving DecidableEq, Repr

/-- The run root (`CONTAINER_IO_PATH`) contents plus the event log. -/
structure FsWorld where
  entries : List DirEntry
  events : List Event
deriving DecidableEq, Repr

/-- The operations inside the `try:` block of `execute` that can raise. -/
inductive ExecStep where
  | mkdirRoot
  | mkdirInputs
  | mkdirOutputs
  | writeCode
  | writePrelude
  | saveVars
  | ensureImage
  | runContainer
deriving DecidableEq, Repr

/-- An exception escaping the `try:` block of `execute`. -/
inductive ExecError where
  | fileExists
  | stepRaised (s : ExecStep)
deriving DecidableEq, Repr

/-- `models.ExecutionResult`. -/
structure ExecutionResult where
  stdout : String
  stderr : String
  returncode : Int
deriving DecidableEq, Repr

/-- `ExecutionResult.success`: `returncode == 0`. -/
def ExecutionResult.success (r : ExecutionResult) : Bool := r.returncode == 0

/-- The `try:` block of `execute`, in program order.  `run_root.mkdir()`
raises `FileExistsError` when a child of that name is already present;
the oracle decides whether each remaining OS/docker call raises (the
raised exception aborts the block at that point).  The container step
returns `dockerRunResult proc`, from which the `ExecutionResult` is
built. -/
def executeBody (oracle : ExecStep → Bool) (proc : Proc) (runName : String)
    (w : FsWorld) : Except ExecError ExecutionResult × FsWorld :=
  if w.entries.any (fun e => e.name = runName) then (.error .fileExists, w)
  else if !oracle .mkdirRoot then (.error (.stepRaised .mkdirRoot), w)
  else
    let w1 : FsWorld := { w with entries := w.entries ++ [⟨runName, true⟩] }
    if !oracle .mkdirInputs then (.error (.stepRaised .mkdirInputs), w1)
    else if !oracle .mkdirOutputs then (.error (.stepRaised .mkdirOutputs), w1)
    else if !oracle .writeCode then (.error (.stepRaised .writeCode), w1)
    else if !oracle .writePrelude then (.error (.stepRaised .writePrelude), w1)
    else if !oracle .saveVars then (.error (.stepRaised .saveVars), w1)
    else if !oracle .ensureImage then (.error (.stepRaised .ensureImage), w1)
    else if !oracle .runContainer then (.error (.stepRaised .runContainer), w1)
    else
      let p := dockerRunResult proc
      (.ok ⟨p.stdout, p.stderr, p.returncode⟩, w1)

/-- Python's `try/finally`: run the body, run the `finally` block on the
resulting state, and propagate the body's outcome (value or exception)
unchanged. -/
def tryFinally {σ ε α : Type} (body : σ → Except ε α × σ) (cleanup : σ → σ)
    (s : σ) : Except ε α × σ :=
  let r := body s
  (r.1, cleanup r.2)

/-- The `finally:` block of `execute`: `_cleanup_old_runs(50)`. -/
def pruneWorld (maxRuns : Nat) (w : FsWorld) : FsWorld :=
  { entries := cleanupOldRuns maxRuns w.entries
    events := w.events ++ [.prune maxRuns] }

/-- `execute(code, variables, image)`: the `try:` block wrapped in the
`finally: _cleanup_old_runs(50)`. -/
def executeRun (oracle : ExecStep → Bool) (proc : Proc) (runName : String)
    (w : FsWorld) : Except ExecError ExecutionResult × FsWorld :=
  tryFinally (executeBody oracle proc runName) (pruneWorld 50) w

/-! ## `DockerRuntime`: daemon, image cache, environment override -/

/-- State of the Docker backend as seen by `DockerRuntime`. -/
structure DockerState where
  daemonUp : Bool
  socketAt : Nat → Bool
  images : List String
  builds : Nat

/-- `RuntimeError("Docker daemon failed to start ...")`. -/
inductive DaemonStartError where
  | timeout
deriving DecidableEq, Repr

/-- The polling loop of `ensure_docker`:
`while not socket_path.exists(): if timeout <= 0: raise; sleep(1);
timeout -= 1`.  `idx` counts the 1-second sleeps elapsed before the
current existence check; on success the number of sleeps is returned. -/
def pollSocket (socketAt : Nat → Bool) : Nat → Nat → Except DaemonStartError Nat
  | timeout, idx =>
    if socketAt idx then .ok idx
    else
      match timeout with
      | 0 => .error .timeout
      | t+1 => pollSocket socketAt t (idx + 1)

/-- `DockerRuntime.ensure_docker()`: probe with `docker ps` and return at
once when it exits 0; otherwise start `dockerd` as a background process
and poll for `/var/run/docker.sock` with `timeout = 10`.  Returns the
updated state, whether `dockerd` was started, and the sleeps elapsed. -/
def ensureDocker (st : DockerState) : Except DaemonStartError (DockerState × Bool × Nat) :=
  if st.daemonUp then .ok (st, false, 0)
  else
    match pollSocket st.socketAt 10 0 with
    | .ok k => .ok ({ st with daemonUp := true }, true, k)
    | .error e => .error e

/-- An exception escaping `ensure_image`. -/
inductive ImageError where
  | daemon (e : DaemonStartError)
  | buildFailed
deriving DecidableEq, Repr

/-- `DockerRuntime.ensure_image()`: ensure the daemon, probe `docker image
inspect self.image` and return on the fast path when it exits 0;
otherwise invoke `docker build -t self.image` (counted in `builds`),
recording the image on success and raising `RuntimeError` on non-zero
exit.  `buildSucceeds` models the build command's exit status. -/
def ensureImage (image : String) (buildSucceeds : Bool) (st : DockerState) :
    Except ImageError DockerState :=
  match ensureDocker st with
  | .error e => .error (.daemon e)
  | .ok (st1, _, _) =>
    if st1.images.contains image then .ok st1
    else
      let st2 := { st1 with builds := st1.builds + 1 }
      if buildSucceeds then .ok { st2 with images := st2.images ++ [image] }
      else .error .buildFailed

/-- `DockerRuntime.__init__`: `self.image = image or os.environ.get(
"CODEGEN_AGENT_RUNNER_IMAGE", "codegen-agent-runner:py313")`; `None` and
the empty string are the falsy values of the `image` argument, and `none`
models an unset environment variable. -/
def runtimeImage (imageArg : Option String) (envVar : Option String) : String :=
  match imageArg with
  | some s => if s ≠ "" then s else envVar.getD "codegen-agent-runner:py313"
  | none => envVar.getD "codegen-agent-runner:py313"

/-- The image name a call of `execute` runs with: `execute` constructs
`DockerRuntime(image=image)` from its own `image` keyword parameter
(default `"codegen-agent-runner:py313"`), which is always a `str`. -/
def executeImage (imageParam : String) (envVar : Option String) : String :=
  runtimeImage (some imageParam) envVar

/-! ## The bootstrap `run()` of `prelude.py` -/

/-- The variable-loading loop of the bootstrap, over `(stem, bytes)` pairs
in iteration order: a successful `_load_var` binds the stem, a failure
prints `[prelude] Failed to load {name}: ...` to stderr and skips only
that variable. -/
def loadVarsLoop : List (String × List Nat) → List (String × Value) × List String
  | [] => ([], [])
  | f :: fs =>
    match loadVar f.2 with
    | some v =>
      let r := loadVarsLoop fs
      ((f.1, v) :: r.1, r.2)
    | none =>
      let r := loadVarsLoop fs
      (r.1, ("[prelude] Failed to load " ++ f.1) :: r.2)

/-- `sorted(glob.glob(os.path.join(VARS_DIR, "*.pkl")))`: the `(stem,
bytes)` pairs in ascending order of the full path, whose varying part is
the stem followed by `".pkl"`. -/
def sortedPklFiles (files : List (String × List Nat)) :
    List (String × List Nat) :=
  files.mergeSort fun a b => a.1 ++ ".pkl" ≤ b.1 ++ ".pkl"

/-- Observable outcome of the bootstrap: the execution namespace, the
stderr diagnostics, and whether control reached `exec(compile(code,
CODE_PATH, "exec"), ns, ns)`. -/
structure PreludeOutcome where
  ns : List (String × Value)
  diagnostics : List String
  executed : Bool

/-- The bootstrap `run()`: seed the namespace with `__name__`/`__file__`,
load every `*.pkl` file in `sorted(glob.glob(...))` order (the sort key is
the full path, i.e. the stem followed by `".pkl"`), tolerating per-file
load failures, then open the code file (`codeReadable` models that
`open` succeeding; its failure exits with status 1 before execution) and
execute the code. -/
def preludeRun (files : List (String × List Nat)) (codeReadable : Bool) :
    PreludeOutcome :=
  let sortedFiles := sortedPklFiles files
  let loaded := loadVarsLoop sortedFiles
  let ns := [("__name__", Value.strV "__main__"),
             ("__file__", Value.strV "/inputs/code.py")] ++ loaded.1
  if codeReadable then
    { ns := ns, diagnostics := loaded.2, executed := true }
  else
    { ns := ns, diagnostics := loaded.2 ++ ["[prelude] Failed to read code"]
      executed := false }

/-! ## Helper lemmas -/

/-- Filtering a concatenation by non-membership in its (disjoint) first
part leaves exactly the second part. -/
theorem filter_not_mem_append {α : Type} [DecidableEq α] (t d : List α)
    (hdisj : t.Disjoint d) :
    (t ++ d).filter (fun x => !(t.contains x)) = d := by
  rw [List.filter_append]
  have h1 : t.filter (fun x => !(t.contains x)) = [] := by
    rw [List.filter_eq_nil_iff]
    intro a ha
    have hc : (t.contains a) = true := List.elem_iff.mpr ha
    rw [hc]
    simp
  have h2 : d.filter (fun x => !(t.contains x)) = d := by
    rw [List.filter_eq_self]
    intro a ha
    have hmem : a ∉ t := fun hmem => hdisj hmem ha
    simpa using hmem
  rw [h1, h2, List.nil_append]

/-- Filtering a duplicate-free list by non-membership in its own `k`-prefix
leaves exactly its `k`-suffix. -/
theorem filter_not_mem_take {α : Type} [DecidableEq α] (l : List α) (k : Nat)
    (h : l.Nodup) :
    l.filter (fun x => !((l.take k).contains x)) = l.drop k := by
  have hdisj : (l.take k).Disjoint (l.drop k) := by
    rw [← List.take_append_drop k l] at h
    exact (List.nodup_append.mp h).2.2
  have hgen := filter_not_mem_append (l.take k) (l.drop k) hdisj
  rw [List.take_append_drop] at hgen
  exact hgen

/-- Mapping `DirEntry.name` commutes with filtering by a name predicate. -/
theorem map_name_filter (p : String → Bool) (entries : List DirEntry) :
    ((entries.filter fun e => p e.name).map DirEntry.name) =
      (entries.map DirEntry.name).filter p := by
  induction entries with
  | nil => rfl
  | cons e es ih =>
    by_cases h : p e.name <;> simp [List.filter_cons, h, ih]

/-! ## C1: retention invariant of `_cleanup_old_runs` -/

/-- **C1.**  After `_cleanup_old_runs(50)` on any root directory state
(with the filesystem's guarantee that child names are distinct): at most
50 children matching the `run_<timestamp>` convention remain; the
retained matching names are exactly the trailing 50 of the
lexicographically sorted list of matching names that existed before
pruning (i.e. the 50 greatest); and the children not matching the
convention are untouched. -/
theorem cleanup_retention_invariant (entries : List DirEntry)
    (hnd : (entries.map DirEntry.name).Nodup) :
    ((cleanupOldRuns 50 entries).filter entryMatches).length ≤ 50 ∧
    (((cleanupOldRuns 50 entries).filter entryMatches).map DirEntry.name).Perm
      ((sortedRunNames entries).drop ((sortedRunNames entries).length - 50)) ∧
    (sortedRunNames entries).Sorted (· ≤ ·) ∧
    (sortedRunNames entries).Perm ((entries.filter entryMatches).map DirEntry.name) ∧
    (cleanupOldRuns 50 entries).filter (fun e => !(entryMatches e)) =
      entries.filter (fun e => !(entryMatches e)) := by
  have hnames_nd : ((entries.filter entryMatches).map DirEntry.name).Nodup :=
    List.Nodup.sublist ((List.filter_sublist entries).map DirEntry.name) hnd
  have hperm : (sortedRunNames entries).Perm
      ((entries.filter entryMatches).map DirEntry.name) :=
    List.mergeSort_perm _ _
  have hsorted : (sortedRunNames entries).Sorted (· ≤ ·) :=
    List.sorted_mergeSort' _
  have hsorted_nd : (sortedRunNames entries).Nodup :=
    hperm.nodup_iff.mpr hnames_nd
  have hff : (cleanupOldRuns 50 entries).filter entryMatches =
      (entries.filter entryMatches).filter
        (fun e => !(((sortedRunNames entries).take
          ((sortedRunNames entries).length - 50)).contains e.name)) := by
    simp only [cleanupOldRuns]
    exact List.filter_comm _ _ _
  have hmap : ((cleanupOldRuns 50 entries).filter entryMatches).map DirEntry.name =
      ((entries.filter entryMatches).map DirEntry.name).filter
        (fun nm => !(((sortedRunNames entries).take
          ((sortedRunNames entries).length - 50)).contains nm)) := by
    rw [hff]
    exact map_name_filter
      (fun nm => !(((sortedRunNames entries).take
        ((sortedRunNames entries).length - 50)).contains nm))
      (entries.filter entryMatches)
  have hdrop : ((cleanupOldRuns 50 entries).filter entryMatches).map DirEntry.name
      |>.Perm ((sortedRunNames entries).drop ((sortedRunNames entries).length - 50)) := by
    rw [hmap, ← filter_not_mem_take _ _ hsorted_nd]
    exact List.Perm.filter _ hperm.symm
  refine ⟨?_, hdrop, hsorted, hperm, ?_⟩
  · have hlen : ((cleanupOldRuns 50 entries).filter entryMatches).length =
        ((sortedRunNames entries).drop ((sortedRunNames entries).length - 50)).length := by
      rw [← List.length_map _ DirEntry.name]
      exact hdrop.length_eq
    rw [hlen, List.length_drop]
    omega
  · simp only [cleanupOldRuns]
    rw [List.filter_comm]
    rw [List.filter_eq_self]
    intro e he
    obtain ⟨hein, hnm⟩ := List.mem_filter.mp he
    by_contra hc
    have hcontains : e.name ∈ (sortedRunNames entries).take
        ((sortedRunNames entries).length - 50) := by
      rcases Bool.eq_false_or_eq_true
        ((((sortedRunNames entries).take
          ((sortedRunNames entries).length - 50)).contains e.name)) with hb | hb
      · exact List.elem_iff.mp hb
      · exact absurd (by rw [hb]; rfl) hc
    have hmemsorted : e.name ∈ sortedRunNames entries := List.take_subset _ _ hcontains
    have hmemnames : e.name ∈ (entries.filter entryMatches).map DirEntry.name :=
      hperm.mem_iff.mp hmemsorted
    obtain ⟨e', he', heq⟩ := List.mem_map.mp hmemnames
    obtain ⟨he'in, he'match⟩ := List.mem_filter.mp he'
    have : e' = e := List.inj_on_of_nodup_map hnd he'in hein heq
    rw [this] at he'match
    simp [he'match] at hnm

/-- Witness for C1 at a concrete root state. -/
theorem cleanup_retention_invariant_witness :
    (([⟨"run_20250101_000000_000000", true⟩, ⟨"data", true⟩] :
        List DirEntry).map DirEntry.name).Nodup ∧
    (((cleanupOldRuns 50 [⟨"run_20250101_000000_000000", true⟩, ⟨"data", true⟩]).filter
        entryMatches).length ≤ 50 ∧
    (((cleanupOldRuns 50 [⟨"run_20250101_000000_000000", true⟩, ⟨"data", true⟩]).filter
        entryMatches).map DirEntry.name).Perm
      ((sortedRunNames [⟨"run_20250101_000000_000000", true⟩, ⟨"data", true⟩]).drop
        ((sortedRunNames [⟨"run_20250101_000000_000000", true⟩, ⟨"data", true⟩]).length - 50)) ∧
    (sortedRunNames [⟨"run_20250101_000000_000000", true⟩, ⟨"data", true⟩]).Sorted (· ≤ ·) ∧
    (sortedRunNames [⟨"run_20250101_000000_000000", true⟩, ⟨"data", true⟩]).Perm
      (([⟨"run_20250101_000000_000000", true⟩, ⟨"data", true⟩] :
        List DirEntry).filter entryMatches |>.map DirEntry.name) ∧
    (cleanupOldRuns 50 [⟨"run_20250101_000000_000000", true⟩, ⟨"data", true⟩]).filter
        (fun e => !(entryMatches e)) =
      ([⟨"run_20250101_000000_000000", true⟩, ⟨"data", true⟩] :
        List DirEntry).filter (fun e => !(entryMatches e))) :=
  ⟨by decide, cleanup_retention_invariant _ (by decide)⟩

/-! ## C6: stderr fallback of `DockerRuntime.run` -/

/-- **C6.**  The result of `DockerRuntime.run` keeps the captured stdout
and exit code unchanged; its stderr equals the captured stdout exactly
when the process exited non-zero with empty captured stderr, and the
captured stderr otherwise. -/
theorem dockerRun_surfaces_stdout (p : Proc) :
    (dockerRunResult p).stdout = p.stdout ∧
    (dockerRunResult p).returncode = p.returncode ∧
    (dockerRunResult p).stderr =
      (if p.returncode ≠ 0 ∧ p.stderr = "" then p.stdout else p.stderr) := by
  unfold dockerRunResult
  split <;> simp

/-! ## C2: marshaling round trip -/

/-- Decoding inverts encoding for integers. -/
theorem decInt_roundtrip (i : Int) (rest : List Nat) :
    decInt (encInt i ++ rest) = some (i, rest) := by
  cases i <;> rfl

/-- Decoding inverts encoding for strings. -/
theorem decStr_roundtrip (s : String) (rest : List Nat) :
    decStrPayload (encStrPayload s ++ rest) = some (s, rest) := by
  have hlen : s.data.length = (s.data.map Char.toNat).length := (List.length_map _ _).symm
  unfold encStrPayload decStrPayload
  simp only [List.cons_append]
  rw [hlen, if_pos (by simp), List.take_left, List.drop_left]
  simp [List.map_map, Function.comp_def, Char.ofNat_toNat]

/-- Decoding inverts encoding for integer columns. -/
theorem decIntCol_roundtrip (col : List Int) (rest : List Nat) :
    decIntCol col.length (encodeIntCol col ++ rest) = some (col, rest) := by
  induction col generalizing rest with
  | nil => rfl
  | cons i is ih =>
    simp only [encodeIntCol, List.length_cons, List.append_assoc]
    simp [decIntCol, decInt_roundtrip, ih]

/-- Decoding inverts encoding for tabular column sets. -/
theorem decFrameCols_roundtrip (cols : List (String × List Int)) (rest : List Nat) :
    decFrameCols cols.length (encodeFrameCols cols ++ rest) = some (cols, rest) := by
  induction cols generalizing rest with
  | nil => rfl
  | cons c cs ih =>
    obtain ⟨nm, col⟩ := c
    simp only [encodeFrameCols, List.cons_append, List.append_assoc, List.length_cons]
    simp [decFrameCols, decStr_roundtrip, decIntCol_roundtrip, ih]

mutual

/-- Decoding inverts encoding for one value, given fuel at least the
value's nesting depth. -/
theorem decodeValue_enc (v : Value) : ∀ (fuel : Nat) (rest : List Nat),
    vdepth v ≤ fuel → decodeValue fuel (encodeValue v ++ rest) = some (v, rest) := by
  cases v with
  | intV i =>
    intro fuel rest h
    cases fuel with
    | zero => simp [vdepth] at h
    | succ f => simp [encodeValue, decodeValue, decInt_roundtrip]
  | strV s =>
    intro fuel rest h
    cases fuel with
    | zero => simp [vdepth] at h
    | succ f => simp [encodeValue, decodeValue, decStr_roundtrip]
  | frameV cols =>
    intro fuel rest h
    cases fuel with
    | zero => simp [vdepth] at h
    | succ f => simp [encodeValue, decodeValue, decFrameCols_roundtrip]
  | listV xs =>
    intro fuel rest h
    cases fuel with
    | zero => simp [vdepth] at h
    | succ f =>
      have hxs : vdepthList xs ≤ f := by
        simp only [vdepth] at h
        omega
      simp [encodeValue, decodeValue, decodeListVals_enc xs f rest hxs]
  | dictV kvs =>
    intro fuel rest h
    cases fuel with
    | zero => simp [vdepth] at h
    | succ f =>
      have hkvs : vdepthDict kvs ≤ f := by
        simp only [vdepth] at h
        omega
      simp [encodeValue, decodeValue, decodeDictEntries_enc kvs f rest hkvs]

/-- Decoding inverts encoding for sequences of values. -/
theorem decodeListVals_enc (xs : List Value) : ∀ (fuel : Nat) (rest : List Nat),
    vdepthList xs ≤ fuel →
    decodeListVals fuel xs.length (encodeListVals xs ++ rest) = some (xs, rest) := by
  cases xs with
  | nil =>
    intro fuel rest h
    simp [encodeListVals, decodeListVals]
  | cons v vs =>
    intro fuel rest h
    simp only [vdepthList] at h
    have hv : vdepth v ≤ fuel := le_trans (le_max_left _ _) h
    have hvs : vdepthList vs ≤ fuel := le_trans (le_max_right _ _) h
    simp only [encodeListVals, List.length_cons, List.append_assoc]
    simp [decodeListVals, decodeValue_enc v fuel _ hv,
      decodeListVals_enc vs fuel rest hvs]

/-- Decoding inverts encoding for mapping entries. -/
theorem decodeDictEntries_enc (kvs : List (String × Value)) :
    ∀ (fuel : Nat) (rest : List Nat),
    vdepthDict kvs ≤ fuel →
    decodeDictEntries fuel kvs.length (encodeDictEntries kvs ++ rest) =
      some (kvs, rest) := by
  cases kvs with
  | nil =>
    intro fuel rest h
    simp [encodeDictEntries, decodeDictEntries]
  | cons kv kvs' =>
    intro fuel rest h
    obtain ⟨k, v⟩ := kv
    simp only [vdepthDict] at h
    have hv : vdepth v ≤ fuel := le_trans (le_max_left _ _) h
    have hkvs : vdepthDict kvs' ≤ fuel := le_trans (le_max_right _ _) h
    simp only [encodeDictEntries, List.cons_append, List.append_assoc, List.length_cons]
    simp [decodeDictEntries, decStr_roundtrip, decodeValue_enc v fuel _ hv,
      decodeDictEntries_enc kvs' fuel rest hkvs]

end

mutual

/-- The nesting depth of a value is bounded by its encoded length. -/
theorem vdepth_le_encLength (v : Value) : vdepth v ≤ (encodeValue v).length := by
  cases v with
  | intV i => simp [vdepth, encodeValue]
  | strV s => simp [vdepth, encodeValue]
  | frameV cols => simp [vdepth, encodeValue]
  | listV xs =>
    have h := vdepthList_le_encLength xs
    simp only [vdepth, encodeValue, List.length_cons]
    omega
  | dictV kvs =>
    have h := vdepthDict_le_encLength kvs
    simp only [vdepth, encodeValue, List.length_cons]
    omega

/-- Depth bound for sequences. -/
theorem vdepthList_le_encLength (xs : List Value) :
    vdepthList xs ≤ (encodeListVals xs).length + 1 := by
  cases xs with
  | nil => simp [vdepthList]
  | cons v vs =>
    have h1 := vdepth_le_encLength v
    have h2 := vdepthList_le_encLength vs
    simp only [vdepthList, encodeListVals, List.length_append]
    omega

/-- Depth bound for mappings. -/
theorem vdepthDict_le_encLength (kvs : List (String × Value)) :
    vdepthDict kvs ≤ (encodeDictEntries kvs).length + 1 := by
  cases kvs with
  | nil => simp [vdepthDict]
  | cons kv kvs' =>
    have h1 := vdepth_le_encLength kv.2
    have h2 := vdepthDict_le_encLength kvs'
    simp only [vdepthDict, encodeDictEntries, List.length_append]
    omega

end

/-- Unpickling a pickled value returns the value. -/
theorem pickleLoads_encodeValue (v : Value) : pickleLoads (encodeValue v) = some v := by
  unfold pickleLoads
  have h := decodeValue_enc v ((encodeValue v).length + 1) []
    (le_trans (vdepth_le_encLength v) (Nat.le_succ _))
  rw [List.append_nil] at h
  rw [h]

/-- **C2.**  Serializing any marshalable value with `_save_var` and
deserializing the written stream with the bootstrap's `_load_var` returns
a value equal to the original; and the loader is first the
`pd.read_pickle` attempt, with `pickle.load` as the fallback used exactly
when that attempt fails. -/
theorem save_load_roundtrip :
    (∀ v : Value, loadVar (saveVar v) = some v) ∧
    (∀ bs : List Nat, loadVar bs = Option.or (readPickle bs) (pickleLoads bs)) := by
  constructor
  · intro v
    have hs : saveVar v = encodeValue v := by
      unfold saveVar
      split <;> rfl
    unfold loadVar readPickle
    rw [hs, pickleLoads_encodeValue]
  · intro bs
    cases h : readPickle bs <;> simp [loadVar, Option.or, h]

/-! ## C3: the identifier-token scan of `_find_used_variables` -/

/-- **C3.**  A binding is returned by `_find_used_variables(code,
namespace)` exactly when it is a binding of the namespace whose key occurs
as a word-boundary identifier token of the code text; in particular the
result is a sub-mapping of the namespace, and no key absent from the token
set is returned. -/
theorem findUsedVariables_spec (code : String) (ns : List (String × Value))
    (kv : String × Value) :
    kv ∈ findUsedVariables code ns ↔ kv ∈ ns ∧ kv.1 ∈ identTokens code := by
  unfold findUsedVariables
  rw [List.mem_filter]
  constructor
  · rintro ⟨h1, h2⟩
    exact ⟨h1, List.elem_iff.mp h2⟩
  · rintro ⟨h1, h2⟩
    exact ⟨h1, List.elem_iff.mpr h2⟩

/-! ## C4: the retention prune runs on every exit path of `execute` -/

/-- **C4.**  For every invocation of `execute` — under every combination of
step outcomes, i.e. on the normal return path and on the exceptional path
of each step — the outcome of the `try:` block is propagated unchanged
while `_cleanup_old_runs(50)` is applied to the root state and its prune
event is recorded. -/
theorem execute_always_prunes (oracle : ExecStep → Bool) (proc : Proc)
    (runName : String) (w : FsWorld) :
    (executeRun oracle proc runName w).1 = (executeBody oracle proc runName w).1 ∧
    (executeRun oracle proc runName w).2.events =
      (executeBody oracle proc runName w).2.events ++ [Event.prune 50] ∧
    (executeRun oracle proc runName w).2.entries =
      cleanupOldRuns 50 (executeBody oracle proc runName w).2.entries ∧
    Event.prune 50 ∈ (executeRun oracle proc runName w).2.events := by
  refine ⟨rfl, rfl, rfl, ?_⟩
  show Event.prune 50 ∈ (executeBody oracle proc runName w).2.events ++ [Event.prune 50]
  simp

/-! ## C5: run-identifier uniqueness and collision behaviour -/

/-- Digit characters are distinct for distinct digits. -/
theorem digitChar_inj {a b : Nat} (ha : a < 10) (hb : b < 10)
    (h : digitChar a = digitChar b) : a = b := by
  interval_cases a <;> interval_cases b <;> revert h <;> decide

/-- `fixedDigits w n` always has length `w`. -/
theorem fixedDigits_length (w : Nat) : ∀ n : Nat, (fixedDigits w n).length = w := by
  induction w with
  | zero => intro n; rfl
  | succ w ih => intro n; simp [fixedDigits, ih]

/-- Fixed-width rendering is injective below `10 ^ w`. -/
theorem fixedDigits_inj (w : Nat) : ∀ {m n : Nat}, m < 10 ^ w → n < 10 ^ w →
    fixedDigits w m = fixedDigits w n → m = n := by
  induction w with
  | zero =>
    intro m n hm hn _
    simp [Nat.pow_zero] at hm hn
    omega
  | succ w ih =>
    intro m n hm hn h
    simp only [fixedDigits] at h
    obtain ⟨hpre, hlast⟩ :=
      List.append_inj h (by rw [fixedDigits_length, fixedDigits_length])
    have hdiv : m / 10 = n / 10 := by
      have hm10 : m / 10 < 10 ^ w := by
        rw [Nat.pow_succ] at hm
        omega
      have hn10 : n / 10 < 10 ^ w := by
        rw [Nat.pow_succ] at hn
        omega
      exact ih hm10 hn10 hpre
    have hmod : m % 10 = n % 10 := by
      have hd : digitChar (m % 10) = digitChar (n % 10) := by injection hlast
      exact digitChar_inj (Nat.mod_lt _ (by omega)) (Nat.mod_lt _ (by omega)) hd
    omega

/-- `datetime` months have at most 31 days. -/
theorem daysInMonth_le (y m : Nat) : daysInMonth y m ≤ 31 := by
  unfold daysInMonth
  split <;> split <;> omega

/-- The strftime rendering is injective on constructor-valid timestamps. -/
theorem formatTimestamp_inj {t1 t2 : Timestamp}
    (h1 : validFields t1 = true) (h2 : validFields t2 = true)
    (h : formatTimestamp t1 = formatTimestamp t2) : t1 = t2 := by
  simp only [validFields, Bool.and_eq_true, decide_eq_true_eq] at h1 h2
  obtain ⟨⟨⟨⟨⟨⟨⟨⟨⟨hy1, hy2⟩, hmo1⟩, hmo2⟩, hd1⟩, hd2⟩, hho⟩, hmi⟩, hse⟩, hmu⟩ := h1
  obtain ⟨⟨⟨⟨⟨⟨⟨⟨⟨gy1, gy2⟩, gmo1⟩, gmo2⟩, gd1⟩, gd2⟩, gho⟩, gmi⟩, gse⟩, gmu⟩ := h2
  have hdm1 : t1.day ≤ 31 := le_trans hd2 (daysInMonth_le _ _)
  have hdm2 : t2.day ≤ 31 := le_trans gd2 (daysInMonth_le _ _)
  have p4 : (10:Nat) ^ 4 = 10000 := by norm_num
  have p2 : (10:Nat) ^ 2 = 100 := by norm_num
  have p6 : (10:Nat) ^ 6 = 1000000 := by norm_num
  unfold formatTimestamp at h
  simp only [List.append_assoc] at h
  obtain ⟨hy, h⟩ := List.append_inj h (by rw [fixedDigits_length, fixedDigits_length])
  obtain ⟨hmo, h⟩ := List.append_inj h (by rw [fixedDigits_length, fixedDigits_length])
  obtain ⟨hdy, h⟩ := List.append_inj h (by rw [fixedDigits_length, fixedDigits_length])
  obtain ⟨-, h⟩ := List.append_inj h rfl
  obtain ⟨hho', h⟩ := List.append_inj h (by rw [fixedDigits_length, fixedDigits_length])
  obtain ⟨hmi', h⟩ := List.append_inj h (by rw [fixedDigits_length, fixedDigits_length])
  obtain ⟨hse', h⟩ := List.append_inj h (by rw [fixedDigits_length, fixedDigits_length])
  obtain ⟨-, hmu'⟩ := List.append_inj h rfl
  have ey : t1.year = t2.year := fixedDigits_inj 4 (by omega) (by omega) hy
  have emo : t1.month = t2.month := fixedDigits_inj 2 (by omega) (by omega) hmo
  have edy : t1.day = t2.day := fixedDigits_inj 2 (by omega) (by omega) hdy
  have eho : t1.hour = t2.hour := fixedDigits_inj 2 (by omega) (by omega) hho'
  have emi : t1.minute = t2.minute := fixedDigits_inj 2 (by omega) (by omega) hmi'
  have ese : t1.second = t2.second := fixedDigits_inj 2 (by omega) (by omega) hse'
  have emu : t1.microsecond = t2.microsecond :=
    fixedDigits_inj 6 (by omega) (by omega) hmu'
  cases t1
  cases t2
  simp only [Timestamp.mk.injEq]
  exact ⟨ey, emo, edy, eho, emi, ese, emu⟩

/-- **C5.**  Distinct (constructor-valid) microsecond timestamps yield
distinct run-directory names; and when a directory of the generated name
already exists, `run_root.mkdir()` raises (`FileExistsError`, the
session-creation error of the spec's taxonomy) and nothing is overwritten
or reused: the root state is unchanged and the error propagates. -/
theorem run_name_unique_and_collision_raises :
    (∀ t1 t2 : Timestamp, validFields t1 = true → validFields t2 = true →
      t1 ≠ t2 → runDirName t1 ≠ runDirName t2) ∧
    (∀ (oracle : ExecStep → Bool) (proc : Proc) (runName : String) (w : FsWorld),
      (w.entries.any fun e => e.name = runName) = true →
      (executeBody oracle proc runName w).1 = Except.error ExecError.fileExists ∧
      (executeBody oracle proc runName w).2 = w) := by
  constructor
  · intro t1 t2 h1 h2 hne heq
    apply hne
    apply formatTimestamp_inj h1 h2
    have hdata : ("run_").data ++ formatTimestamp t1 =
        ("run_").data ++ formatTimestamp t2 := congrArg String.data heq
    exact (List.append_inj hdata rfl).2
  · intro oracle proc runName w hexists
    constructor <;> simp [executeBody, hexists]

/-- Witness for C5: two timestamps one microsecond apart, and a root
already containing the generated name. -/
theorem run_name_unique_and_collision_raises_witness :
    (validFields ⟨2025, 1, 1, 0, 0, 0, 0⟩ = true ∧
     validFields ⟨2025, 1, 1, 0, 0, 0, 1⟩ = true ∧
     (⟨2025, 1, 1, 0, 0, 0, 0⟩ : Timestamp) ≠ ⟨2025, 1, 1, 0, 0, 0, 1⟩ ∧
     runDirName ⟨2025, 1, 1, 0, 0, 0, 0⟩ ≠ runDirName ⟨2025, 1, 1, 0, 0, 0, 1⟩) ∧
    ((([⟨"run_20250101_000000_000000", true⟩] : List DirEntry).any
        fun e => e.name = "run_20250101_000000_000000") = true ∧
     (executeBody (fun _ => true) ⟨"", "", 0⟩ "run_20250101_000000_000000"
        ⟨[⟨"run_20250101_000000_000000", true⟩], []⟩).1 =
          Except.error ExecError.fileExists ∧
     (executeBody (fun _ => true) ⟨"", "", 0⟩ "run_20250101_000000_000000"
        ⟨[⟨"run_20250101_000000_000000", true⟩], []⟩).2 =
          ⟨[⟨"run_20250101_000000_000000", true⟩], []⟩) :=
  ⟨⟨by decide, by decide, by decide,
    run_name_unique_and_collision_raises.1 _ _ (by decide) (by decide) (by decide)⟩,
   ⟨by decide,
    (run_name_unique_and_collision_raises.2 _ _ _ _ (by decide)).1,
    (run_name_unique_and_collision_raises.2 _ _ _ _ (by decide)).2⟩⟩

/-! ## C7: idempotence of `ensure_image` -/

/-- **C7.**  After a first `ensure_image` call in which the image was
absent and its build succeeded (one build invocation), a second call
observes the image present and returns on the fast path with the state
unchanged — in particular without invoking the build again. -/
theorem ensureImage_idempotent (st : DockerState) (image : String) (b2 : Bool)
    (st' : DockerState) (hnew : image ∉ st.images)
    (h : ensureImage image true st = Except.ok st') :
    st'.builds = st.builds + 1 ∧
    image ∈ st'.images ∧
    ensureImage image b2 st' = Except.ok st' := by
  have hc : (st.images.contains image) = false :=
    Bool.eq_false_iff.mpr (fun hb => hnew (List.elem_iff.mp hb))
  by_cases hd : st.daemonUp
  · simp only [ensureImage, ensureDocker, hd, if_true, hc] at h
    simp only [Bool.false_eq_true, if_false, if_true, Except.ok.injEq] at h
    subst h
    refine ⟨rfl, by simp, ?_⟩
    have hc2 : ((st.images ++ [image]).contains image) = true :=
      List.elem_iff.mpr (by simp)
    simp [ensureImage, ensureDocker, hd, hc2]
  · simp only [ensureImage, ensureDocker, hd, if_false] at h
    cases hpoll : pollSocket st.socketAt 10 0 with
    | error e => rw [hpoll] at h; simp at h
    | ok k =>
      rw [hpoll] at h
      simp only [hc, Bool.false_eq_true, if_false, if_true, Except.ok.injEq] at h
      subst h
      refine ⟨rfl, by simp, ?_⟩
      have hc2 : ((st.images ++ [image]).contains image) = true :=
        List.elem_iff.mpr (by simp)
      simp [ensureImage, ensureDocker, hc2]

/-- Witness for C7: a fresh state with the daemon reachable and no cached
image; the first call builds once, the second is a no-op. -/
theorem ensureImage_idempotent_witness :
    ("codegen-agent-runner:py313" ∉ ([] : List String) ∧
     ensureImage "codegen-agent-runner:py313" true
        ⟨true, fun _ => false, [], 0⟩ =
       Except.ok ⟨true, fun _ => false, ["codegen-agent-runner:py313"], 1⟩) ∧
    ((⟨true, fun _ => false, ["codegen-agent-runner:py313"], 1⟩ : DockerState).builds =
        (⟨true, fun _ => false, [], 0⟩ : DockerState).builds + 1 ∧
     "codegen-agent-runner:py313" ∈
        (⟨true, fun _ => false, ["codegen-agent-runner:py313"], 1⟩ : DockerState).images ∧
     ensureImage "codegen-agent-runner:py313" true
        ⟨true, fun _ => false, ["codegen-agent-runner:py313"], 1⟩ =
       Except.ok ⟨true, fun _ => false, ["codegen-agent-runner:py313"], 1⟩) :=
  ⟨⟨by simp, rfl⟩,
   ensureImage_idempotent ⟨true, fun _ => false, [], 0⟩
     "codegen-agent-runner:py313" true
     ⟨true, fun _ => false, ["codegen-agent-runner:py313"], 1⟩ (by simp) rfl⟩

/-! ## C8: the environment override (corrected) -/

/-- **C8 counterexample.**  With `CODEGEN_AGENT_RUNNER_IMAGE` set to
`"custom:prebuilt"`, an execution through `execute` (whose `image`
parameter always carries an explicit string, by default
`"codegen-agent-runner:py313"`) runs with the parameter's image, not the
environment's; and even when the runtime's image comes from the
environment, a build is still invoked when that image is absent locally
(the `builds` counter increments), so the build step is not bypassed
unconditionally. -/
theorem env_override_counterexample :
    executeImage "codegen-agent-runner:py313" (some "custom:prebuilt") =
      "codegen-agent-runner:py313" ∧
    "codegen-agent-runner:py313" ≠ "custom:prebuilt" ∧
    ensureImage "custom:prebuilt" true ⟨true, fun _ => false, [], 0⟩ =
      Except.ok ⟨true, fun _ => false, ["custom:prebuilt"], 1⟩ :=
  ⟨rfl, by decide, rfl⟩

/-- **C8 (amended).**  The environment variable supplies the image name
only when `DockerRuntime` is constructed with a falsy `image` argument
(`None` or `""`); `execute` always passes its explicit `image` parameter,
which therefore wins whenever non-empty; and the build step is skipped
exactly on the inspect fast path — when the selected image already exists
locally — while an absent image is built (or the build error raised) even
under the override. -/
theorem env_override_amended :
    (∀ e : String, runtimeImage none (some e) = e) ∧
    (∀ e : String, runtimeImage (some "") (some e) = e) ∧
    (runtimeImage none none = "codegen-agent-runner:py313") ∧
    (∀ (p : String) (env : Option String), p ≠ "" → executeImage p env = p) ∧
    (∀ (image : String) (b : Bool) (st : DockerState), st.daemonUp = true →
      image ∈ st.images → ensureImage image b st = Except.ok st) ∧
    (∀ (image : String) (st : DockerState), st.daemonUp = true →
      image ∉ st.images →
      ensureImage image true st =
        Except.ok { st with builds := st.builds + 1, images := st.images ++ [image] } ∧
      ensureImage image false st = Except.error ImageError.buildFailed) := by
  refine ⟨fun e => rfl, fun e => rfl, rfl, ?_, ?_, ?_⟩
  · intro p env hp
    simp [executeImage, runtimeImage, hp]
  · intro image b st hd hmem
    simp [ensureImage, ensureDocker, hd, hmem]
  · intro image st hd hmem
    constructor <;> simp [ensureImage, ensureDocker, hd, hmem]

/-- Witness for the amended C8 at concrete inputs. -/
theorem env_override_amended_witness :
    (runtimeImage none (some "custom:prebuilt") = "custom:prebuilt") ∧
    ("codegen-agent-runner:py313" ≠ "" ∧
      executeImage "codegen-agent-runner:py313" (some "custom:prebuilt") =
        "codegen-agent-runner:py313") ∧
    ((⟨true, fun _ => false, ["custom:prebuilt"], 0⟩ : DockerState).daemonUp = true ∧
     "custom:prebuilt" ∈
        (⟨true, fun _ => false, ["custom:prebuilt"], 0⟩ : DockerState).images ∧
     ensureImage "custom:prebuilt" true ⟨true, fun _ => false, ["custom:prebuilt"], 0⟩ =
        Except.ok ⟨true, fun _ => false, ["custom:prebuilt"], 0⟩) :=
  ⟨env_override_amended.1 "custom:prebuilt",
   ⟨by decide, env_override_amended.2.2.2.1 _ _ (by decide)⟩,
   ⟨rfl, by simp,
    env_override_amended.2.2.2.2.1 "custom:prebuilt" true
      ⟨true, fun _ => false, ["custom:prebuilt"], 0⟩ rfl (by simp)⟩⟩

/-! ## C9: daemon startup polling of `ensure_docker` -/

/-- If the socket exists at some check index within the budget, the poll
loop succeeds at the first such index; `idx` is the count of 1-second
sleeps already elapsed. -/
theorem pollSocket_ok_bound (socketAt : Nat → Bool) :
    ∀ (t idx k : Nat), pollSocket socketAt t idx = Except.ok k →
      idx ≤ k ∧ k ≤ idx + t ∧ socketAt k = true := by
  intro t
  induction t with
  | zero =>
    intro idx k h
    simp only [pollSocket] at h
    by_cases hs : socketAt idx
    · simp only [hs, if_true, Except.ok.injEq] at h
      subst h
      exact ⟨le_refl _, by omega, hs⟩
    · simp [hs] at h
  | succ t ih =>
    intro idx k h
    simp only [pollSocket] at h
    by_cases hs : socketAt idx
    · simp only [hs, if_true, Except.ok.injEq] at h
      subst h
      exact ⟨le_refl _, by omega, hs⟩
    · simp only [hs, if_false] at h
      obtain ⟨h1, h2, h3⟩ := ih (idx + 1) k h
      exact ⟨by omega, by omega, h3⟩

/-- If the socket is absent at every check index within the budget, the
poll loop raises. -/
theorem pollSocket_all_fail (socketAt : Nat → Bool) :
    ∀ (t idx : Nat), (∀ k, idx ≤ k → k ≤ idx + t → socketAt k = false) →
      pollSocket socketAt t idx = Except.error DaemonStartError.timeout := by
  intro t
  induction t with
  | zero =>
    intro idx hall
    have h0 : socketAt idx = false := hall idx (le_refl _) (by omega)
    simp [pollSocket, h0]
  | succ t ih =>
    intro idx hall
    have h0 : socketAt idx = false := hall idx (le_refl _) (by omega)
    simp only [pollSocket, h0, Bool.false_eq_true, if_false]
    exact ih (idx + 1) (fun k hk1 hk2 => hall k (by omega) (by omega))

/-- **C9.**  `ensure_docker` returns at once without starting anything
when the daemon is reachable; when it is not, it starts `dockerd` and
polls the control socket at most 10 times at 1-second intervals (after an
immediate initial check), raising the daemon-start error
(`RuntimeError`) exactly when the socket never appears at any of those
checks, and otherwise succeeding with the daemon started after at most 10
sleeps. -/
theorem ensureDocker_spec (st : DockerState) :
    (st.daemonUp = true → ensureDocker st = Except.ok (st, false, 0)) ∧
    (st.daemonUp = false → (∀ k, k ≤ 10 → st.socketAt k = false) →
      ensureDocker st = Except.error DaemonStartError.timeout) ∧
    (st.daemonUp = false →
      ∀ (stout : DockerState) (started : Bool) (sleeps : Nat),
        ensureDocker st = Except.ok (stout, started, sleeps) →
        started = true ∧ sleeps ≤ 10 ∧ st.socketAt sleeps = true ∧
          stout = { st with daemonUp := true }) := by
    refine ⟨?_, ?_, ?_⟩
    · intro hd
      simp [ensureDocker, hd]
    · intro hd hall
      have hp := pollSocket_all_fail st.socketAt 10 0
        (fun k hk1 hk2 => hall k (by omega))
      simp [ensureDocker, hd, hp]
    · intro hd stout started sleeps h
      simp only [ensureDocker, hd, Bool.false_eq_true, if_false] at h
      cases hpoll : pollSocket st.socketAt 10 0 with
      | error e => rw [hpoll] at h; simp at h
      | ok k =>
        rw [hpoll] at h
        simp only [Except.ok.injEq, Prod.mk.injEq] at h
        obtain ⟨hst, hstart, hsleep⟩ := h
        obtain ⟨-, hk2, hk3⟩ := pollSocket_ok_bound st.socketAt 10 0 k hpoll
        subst hst hstart hsleep
        exact ⟨rfl, by omega, hk3, rfl⟩

/-- Witness for C9: a reachable daemon, an unreachable daemon whose socket
never appears, and an unreachable daemon whose socket appears at once. -/
theorem ensureDocker_spec_witness :
    ((⟨true, fun _ => false, [], 0⟩ : DockerState).daemonUp = true ∧
      ensureDocker ⟨true, fun _ => false, [], 0⟩ =
        Except.ok (⟨true, fun _ => false, [], 0⟩, false, 0)) ∧
    ((⟨false, fun _ => false, [], 0⟩ : DockerState).daemonUp = false ∧
      ensureDocker ⟨false, fun _ => false, [], 0⟩ =
        Except.error DaemonStartError.timeout) ∧
    ((⟨false, fun _ => true, [], 0⟩ : DockerState).daemonUp = false ∧
      (true = true ∧ 0 ≤ 10 ∧ (⟨false, fun _ => true, [], 0⟩ : DockerState).socketAt 0 = true ∧
        (⟨true, fun _ => true, [], 0⟩ : DockerState) =
          { (⟨false, fun _ => true, [], 0⟩ : DockerState) with daemonUp := true })) :=
  ⟨⟨rfl, (ensureDocker_spec ⟨true, fun _ => false, [], 0⟩).1 rfl⟩,
   ⟨rfl, (ensureDocker_spec ⟨false, fun _ => false, [], 0⟩).2.1 rfl (fun k hk => rfl)⟩,
   ⟨rfl, (ensureDocker_spec ⟨false, fun _ => true, [], 0⟩).2.2 rfl
      ⟨true, fun _ => true, [], 0⟩ true 0 rfl⟩⟩

/-! ## C10: per-variable load failures are non-fatal in the bootstrap -/

/-- Closed form of the bootstrap's variable-loading loop: the loaded
bindings are the loadable files in order, and one diagnostic is emitted
per failing file, in order. -/
theorem loadVarsLoop_spec (files : List (String × List Nat)) :
    (loadVarsLoop files).1 =
      files.filterMap (fun f => (loadVar f.2).map (fun v => (f.1, v))) ∧
    (loadVarsLoop files).2 =
      (files.filter (fun f => (loadVar f.2).isNone)).map
        (fun f => "[prelude] Failed to load " ++ f.1) := by
  induction files with
  | nil => exact ⟨rfl, rfl⟩
  | cons f fs ih =>
    cases hl : loadVar f.2 with
    | some v =>
      simp [loadVarsLoop, hl, List.filterMap_cons, List.filter_cons, ih.1, ih.2]
    | none =>
      simp [loadVarsLoop, hl, List.filterMap_cons, List.filter_cons, ih.1, ih.2]

/-- **C10.**  With the code file readable, the bootstrap always proceeds to
execute the supplied code; its namespace consists of the two seed bindings
followed by exactly the variables whose files deserialized, in sorted file
order (a failing file is omitted and only it); and one stderr diagnostic
naming the variable is emitted per failing file. -/
theorem prelude_load_failure_nonfatal (files : List (String × List Nat)) :
    (preludeRun files true).executed = true ∧
    (preludeRun files true).ns =
      [("__name__", Value.strV "__main__"),
       ("__file__", Value.strV "/inputs/code.py")] ++
        ((sortedPklFiles files).filterMap
          (fun f => (loadVar f.2).map (fun v => (f.1, v)))) ∧
    (preludeRun files true).diagnostics =
      ((sortedPklFiles files).filter (fun f => (loadVar f.2).isNone)).map
        (fun f => "[prelude] Failed to load " ++ f.1) := by
  refine ⟨rfl, ?_, ?_⟩
  · show ([("__name__", Value.strV "__main__"),
      ("__file__", Value.strV "/inputs/code.py")] ++
        (loadVarsLoop (sortedPklFiles files)).1) = _
    rw [(loadVarsLoop_spec (sortedPklFiles files)).1]
  · show (loadVarsLoop (sortedPklFiles files)).2 = _
    exact (loadVarsLoop_spec (sortedPklFiles files)).2

end DataAgency
